import Mathlib

/-!
Shallow embedding of the core of the `dosta_h2` HTTP/2 library
(`src/h2/connection.py` and `src/h2/utilities.py`), together with theorems
settling the specification claims about it.

Python octet strings (both `bytes` and `str` forms, which the source treats
interchangeably by matching against both literals) are modelled as
`List Char`, one `Char` per octet.  Python exceptions are modelled by an
`Except` result carrying an error kind: `ProtocolError` and
`FlowControlError` are the two error classes the module raises on purpose,
and `indexError` models the built-in `IndexError` that escapes from an
out-of-bounds subscript such as `header[0][0]` on an empty name.
-/

set_option autoImplicit false

namespace H2

/-- Error kinds observable from the embedded code. -/
inductive H2Err where
  | protocolError
  | flowControlError
  | indexError
  deriving DecidableEq, Repr

/-- Whether an `Except` result is a normal return (no exception). -/
def except_is_ok {α : Type} : Except H2Err α → Bool
  | Except.ok _ => true
  | Except.error _ => false

/-! ## `h2/connection.py`: the connection state machine -/

/-- Embedding of `ConnectionState` from `h2/connection.py`. -/
inductive ConnectionState where
  | IDLE
  | CLIENT_OPEN
  | SERVER_OPEN
  | CLOSED
  deriving DecidableEq, Repr

/-- Embedding of `ConnectionInputs` from `h2/connection.py`. -/
inductive ConnectionInputs where
  | SEND_HEADERS
  | SEND_PUSH_PROMISE
  | SEND_DATA
  | SEND_GOAWAY
  | SEND_WINDOW_UPDATE
  | SEND_PING
  | RECV_HEADERS
  | RECV_PUSH_PROMISE
  | RECV_DATA
  | RECV_GOAWAY
  | RECV_WINDOW_UPDATE
  | RECV_PING
  deriving DecidableEq, Repr

open ConnectionState ConnectionInputs

/-- The `_transitions` dictionary of `H2ConnectionStateMachine`
(`h2/connection.py`, lines 62-92), as a partial map from (state, input) to
the target state.  Every side-effect slot in the source table is `None`, so
only the target state is recorded.  Note: the source line for the last entry
reads `ConnectlionInputs.RECV_PING` — a typographical slip for
`ConnectionInputs.RECV_PING` that would raise a `NameError` when the class
body is executed at import time; the entry is modelled as the evident
intent `(SERVER_OPEN, RECV_PING) -> SERVER_OPEN`. -/
def transitions : ConnectionState → ConnectionInputs → Option ConnectionState
  -- State: idle
  | IDLE, SEND_HEADERS => some CLIENT_OPEN
  | IDLE, RECV_HEADERS => some SERVER_OPEN
  -- State: open, client side.
  | CLIENT_OPEN, SEND_HEADERS => some CLIENT_OPEN
  | CLIENT_OPEN, SEND_DATA => some CLIENT_OPEN
  | CLIENT_OPEN, SEND_GOAWAY => some CLOSED
  | CLIENT_OPEN, SEND_WINDOW_UPDATE => some CLIENT_OPEN
  | CLIENT_OPEN, SEND_PING => some CLIENT_OPEN
  | CLIENT_OPEN, RECV_HEADERS => some CLIENT_OPEN
  | CLIENT_OPEN, RECV_PUSH_PROMISE => some CLIENT_OPEN
  | CLIENT_OPEN, RECV_DATA => some CLIENT_OPEN
  | CLIENT_OPEN, RECV_GOAWAY => some CLOSED
  | CLIENT_OPEN, RECV_WINDOW_UPDATE => some CLIENT_OPEN
  | CLIENT_OPEN, RECV_PING => some CLIENT_OPEN
  -- State: open, server side.
  | SERVER_OPEN, SEND_HEADERS => some SERVER_OPEN
  | SERVER_OPEN, SEND_PUSH_PROMISE => some SERVER_OPEN
  | SERVER_OPEN, SEND_DATA => some SERVER_OPEN
  | SERVER_OPEN, SEND_GOAWAY => some CLOSED
  | SERVER_OPEN, SEND_WINDOW_UPDATE => some SERVER_OPEN
  | SERVER_OPEN, SEND_PING => some SERVER_OPEN
  | SERVER_OPEN, RECV_HEADERS => some SERVER_OPEN
  | SERVER_OPEN, RECV_DATA => some SERVER_OPEN
  | SERVER_OPEN, RECV_GOAWAY => some CLOSED
  | SERVER_OPEN, RECV_WINDOW_UPDATE => some SERVER_OPEN
  -- Source line 91 (the `ConnectlionInputs` typo), modelled as intended:
  | SERVER_OPEN, RECV_PING => some SERVER_OPEN
  | _, _ => none

/-- Embedding of `H2ConnectionStateMachine` from `h2/connection.py`: its only mutable
attribute is `state` (initialised to `IDLE` in `__init__`). -/
structure H2ConnectionStateMachine where
  state : ConnectionState
  deriving DecidableEq, Repr

/-- Embedding of `H2ConnectionStateMachine.process_input` (`h2/connection.py`, lines
97-114).  The result pairs the Python return/raise behaviour with the
machine after the call: on a pair present in `_transitions` the state
becomes the target state and `None` is returned (every `func` slot in the
table is `None`); on an absent pair the state is first set to `CLOSED` and
a `ProtocolError` is then raised. -/
def process_input (m : H2ConnectionStateMachine) (input_ : ConnectionInputs) :
    Except H2Err Unit × H2ConnectionStateMachine :=
  match transitions m.state input_ with
  | some target_state => (Except.ok (), ⟨target_state⟩)
  | none => (Except.error H2Err.protocolError, ⟨CLOSED⟩)

/-! ## `h2/utilities.py`: `guard_increment_window` -/

/-- Embedding of `guard_increment_window` from `h2/utilities.py` (lines 123-144).
Python integers are unbounded, so the arguments are modelled as `Int`;
the function performs no lower-bound check. -/
def guard_increment_window (current increment : Int) : Except H2Err Int :=
  let LARGEST_FLOW_CONTROL_WINDOW : Int := 2 ^ 31 - 1
  let new_size := current + increment
  if new_size > LARGEST_FLOW_CONTROL_WINDOW then
    Except.error H2Err.flowControlError
  else
    Except.ok new_size

/-! ## `h2/utilities.py`: data model for header blocks -/

/-- A Python octet string (`bytes` or `str`), one `Char` per octet. -/
abbrev Bytes := List Char

/-- A header field.  The source represents a field either as a plain
two-tuple or as an (hpack) `HeaderTuple` / `NeverIndexedHeaderTuple`; the
never-indexed distinction is modelled as a boolean sensitivity flag. -/
structure Header where
  name : Bytes
  value : Bytes
  neverIndexed : Bool
  deriving DecidableEq, Repr

/-- Embedding of `_WHITESPACE` from `h2/utilities.py`: the six octets of Python's
`string.whitespace` (space, tab, LF, CR, VT, FF). -/
def WHITESPACE : List Char := [' ', '\t', '\n', '\r', Char.ofNat 11, Char.ofNat 12]

/-- Embedding of `CONNECTION_HEADERS` from `h2/utilities.py`. -/
def CONNECTION_HEADERS : List Bytes :=
  ["connection".toList, "proxy-connection".toList, "keep-alive".toList,
   "transfer-encoding".toList, "upgrade".toList]

/-- Embedding of `_ALLOWED_PSEUDO_HEADER_FIELDS` from `h2/utilities.py`. -/
def ALLOWED_PSEUDO_HEADER_FIELDS : List Bytes :=
  [":method".toList, ":scheme".toList, ":authority".toList,
   ":path".toList, ":status".toList]

/-- Embedding of `_SECURE_HEADERS` from `h2/utilities.py`. -/
def SECURE_HEADERS : List Bytes :=
  ["authorization".toList, "proxy-authorization".toList]

/-- An ASCII uppercase octet, as matched by `UPPER_RE = [A-Z]`. -/
def is_ascii_upper (c : Char) : Bool :=
  decide ('A' ≤ c) && decide (c ≤ 'Z')

/-- Python `bytes.lower` on a single octet: map `A`-`Z` to `a`-`z`. -/
def ascii_lower (c : Char) : Char :=
  if is_ascii_upper c then Char.ofNat (c.toNat + 32) else c

/-- Python `name.startswith(':')` (`_custom_startswith` against `:`). -/
def startswith_colon : Bytes → Bool
  | ':' :: _ => true
  | _ => false

/-- Embedding of `HeaderValidationFlags` from `h2/utilities.py`. -/
structure HeaderValidationFlags where
  is_client : Bool
  is_trailer : Bool
  is_response_header : Bool
  is_push_promise : Bool
  deriving DecidableEq, Repr

/-! ## `h2/utilities.py`: inbound validation pipeline

`validate_headers` composes six single-pass generators.  Draining the
composition with `list(...)` interleaves them per header: each header flows
through `_reject_uppercase_header_fields`, `_reject_surrounding_whitespace`,
`_reject_te`, `_reject_connection_header`, `_reject_pseudo_header_fields`
and the `_validate_host_authority_header` capture, in that order, before
the next header is read; when the input is exhausted, the trailing checks
of `_reject_pseudo_header_fields` run first (its generator finishes first)
and the trailing checks of `_validate_host_authority_header` run last.
Each per-header body below is the loop body of the corresponding generator;
`validate_headers` is the drained semantics of the composition. -/

/-- Loop body of `_reject_uppercase_header_fields`: `UPPER_RE.search` on
the name. -/
def reject_uppercase_check (header : Header) : Except H2Err Unit :=
  if header.name.any is_ascii_upper then Except.error H2Err.protocolError
  else Except.ok ()

/-- Loop body of `_reject_surrounding_whitespace`.  The name is indexed
unconditionally (`header[0][0]`, `header[0][-1]`), so an empty name raises
`IndexError`; the value is only indexed when non-empty (`if header[1]`). -/
def reject_surrounding_whitespace_check (header : Header) : Except H2Err Unit :=
  match header.name with
  | [] => Except.error H2Err.indexError
  | a :: rest =>
    if a ∈ WHITESPACE ∨ (a :: rest).getLast (List.cons_ne_nil a rest) ∈ WHITESPACE then
      Except.error H2Err.protocolError
    else
      match header.value with
      | [] => Except.ok ()
      | c :: vrest =>
        if c ∈ WHITESPACE ∨ (c :: vrest).getLast (List.cons_ne_nil c vrest) ∈ WHITESPACE then
          Except.error H2Err.protocolError
        else Except.ok ()

/-- Loop body of `_reject_te`: a header named `te` must have a value whose
lowercased form is exactly `trailers`. -/
def reject_te_check (header : Header) : Except H2Err Unit :=
  if header.name = "te".toList then
    if header.value.map ascii_lower ≠ "trailers".toList then
      Except.error H2Err.protocolError
    else Except.ok ()
  else Except.ok ()

/-- Loop body of `_reject_connection_header`. -/
def reject_connection_check (header : Header) : Except H2Err Unit :=
  if header.name ∈ CONNECTION_HEADERS then Except.error H2Err.protocolError
  else Except.ok ()

/-- Loop body of `_reject_pseudo_header_fields`, acting on the running
state (`seen_pseudo_header_fields`, `seen_regular_header`).  The source
adds the name to the seen-set before the out-of-sequence and allowed-set
checks, but those checks raise, so the insertion is observable only on the
success path. -/
def pseudo_step (seen : List Bytes) (reg : Bool) (header : Header) :
    Except H2Err (List Bytes × Bool) :=
  if startswith_colon header.name then
    if header.name ∈ seen then Except.error H2Err.protocolError
    else if reg then Except.error H2Err.protocolError
    else if header.name ∉ ALLOWED_PSEUDO_HEADER_FIELDS then
      Except.error H2Err.protocolError
    else Except.ok (header.name :: seen, reg)
  else Except.ok (seen, true)

/-- Trailing checks of `_reject_pseudo_header_fields`: pseudo-headers are
forbidden in trailers, and a response header block must contain
`:status`. -/
def pseudo_post (flags : HeaderValidationFlags) (seen : List Bytes) :
    Except H2Err Unit :=
  if flags.is_trailer ∧ seen ≠ [] then Except.error H2Err.protocolError
  else if flags.is_response_header ∧ ":status".toList ∉ seen then
    Except.error H2Err.protocolError
  else Except.ok ()

/-- The loop of `_reject_pseudo_header_fields` over a whole block. -/
def pseudo_scan : List Header → List Bytes → Bool → Except H2Err (List Bytes × Bool)
  | [], seen, reg => Except.ok (seen, reg)
  | header :: rest, seen, reg => do
    let (seen', reg') ← pseudo_step seen reg header
    pseudo_scan rest seen' reg'

/-- Embedding of `_reject_pseudo_header_fields` (`h2/utilities.py`, lines 291-345),
drained. -/
def reject_pseudo_header_fields (headers : List Header)
    (flags : HeaderValidationFlags) : Except H2Err (List Header) := do
  let (seen, _) ← pseudo_scan headers [] false
  pseudo_post flags seen
  pure headers

/-- Loop body of `_validate_host_authority_header`: capture the last-seen
`:authority` and `host` values (note the `elif`). -/
def host_step (authority_val host_val : Option Bytes) (header : Header) :
    Option Bytes × Option Bytes :=
  if header.name = ":authority".toList then (some header.value, host_val)
  else if header.name = "host".toList then (authority_val, some header.value)
  else (authority_val, host_val)

/-- The loop of `_validate_host_authority_header` over a whole block. -/
def host_scan : List Header → Option Bytes → Option Bytes → Option Bytes × Option Bytes
  | [], authority_val, host_val => (authority_val, host_val)
  | header :: rest, authority_val, host_val =>
    host_scan rest (host_step authority_val host_val header).1
      (host_step authority_val host_val header).2

/-- Trailing checks of `_validate_host_authority_header`: fail if neither
header was present; fail if both were present with different values. -/
def host_post (authority_val host_val : Option Bytes) : Except H2Err Unit :=
  if authority_val = none ∧ host_val = none then Except.error H2Err.protocolError
  else if authority_val.isSome ∧ host_val.isSome ∧ authority_val ≠ host_val then
    Except.error H2Err.protocolError
  else Except.ok ()

/-- Embedding of `_validate_host_authority_header` (`h2/utilities.py`, lines 348-395),
drained. -/
def validate_host_authority_header (headers : List Header) :
    Except H2Err (List Header) := do
  let s := host_scan headers none none
  host_post s.1 s.2
  pure headers

/-- Embedding of `_check_host_authority_header` (`h2/utilities.py`, lines 398-414):
skip the validation entirely on response headers and trailers. -/
def check_host_authority_header (headers : List Header)
    (flags : HeaderValidationFlags) : Except H2Err (List Header) :=
  if flags.is_response_header || flags.is_trailer then Except.ok headers
  else validate_host_authority_header headers

/-- The running state of the drained `validate_headers` pipeline. -/
structure VState where
  seenPseudo : List Bytes
  seenRegular : Bool
  authorityVal : Option Bytes
  hostVal : Option Bytes
  deriving DecidableEq, Repr

/-- One header's trip through the interleaved pipeline, checks in pipeline
order.  The host capture is pure, so it is performed unconditionally here;
when the host stage is skipped the captured values are simply unused. -/
def validate_step (st : VState) (header : Header) : Except H2Err VState := do
  reject_uppercase_check header
  reject_surrounding_whitespace_check header
  reject_te_check header
  reject_connection_check header
  let (sp, sr) ← pseudo_step st.seenPseudo st.seenRegular header
  let (a, h) := host_step st.authorityVal st.hostVal header
  pure ⟨sp, sr, a, h⟩

/-- The per-header loop of the drained pipeline. -/
def validate_scan : List Header → VState → Except H2Err VState
  | [], st => Except.ok st
  | header :: rest, st => do
    let st' ← validate_step st header
    validate_scan rest st'

/-- Embedding of `validate_headers` (`h2/utilities.py`, lines 178-213): the drained
semantics of the generator pipeline.  After the per-header loop, the
trailing pseudo-header checks run, then (unless skipped) the trailing
host/:authority checks; on success the materialized list is the input
list, since every generator yields the header objects unchanged. -/
def validate_headers (headers : List Header) (flags : HeaderValidationFlags) :
    Except H2Err (List Header) := do
  let st ← validate_scan headers ⟨[], false, none, none⟩
  pseudo_post flags st.seenPseudo
  if flags.is_response_header || flags.is_trailer then pure headers
  else do
    host_post st.authorityVal st.hostVal
    pure headers

/-! ## `h2/utilities.py`: outbound normalization -/

/-- Embedding of `_secure_headers` (`h2/utilities.py`, lines 51-75). -/
def secure_headers : List Header → List Header
  | [] => []
  | header :: rest =>
    (if header.name ∈ SECURE_HEADERS then { header with neverIndexed := true }
     else if header.name = "cookie".toList ∧ header.value.length < 20 then
       { header with neverIndexed := true }
     else header) :: secure_headers rest

/-- Python `str.strip` / `bytes.strip`: remove leading and trailing
whitespace octets. -/
def strip_ws (s : Bytes) : Bytes :=
  ((s.dropWhile fun c => decide (c ∈ WHITESPACE)).reverse.dropWhile
    fun c => decide (c ∈ WHITESPACE)).reverse

/-- Embedding of `_lowercase_header_names` (`h2/utilities.py`): lowercases names,
preserving the tuple's class (hence the sensitivity flag). -/
def lowercase_header_names (headers : List Header) : List Header :=
  headers.map fun header => { header with name := header.name.map ascii_lower }

/-- Embedding of `_strip_surrounding_whitespace` (`h2/utilities.py`). -/
def strip_surrounding_whitespace (headers : List Header) : List Header :=
  headers.map fun header =>
    { header with name := strip_ws header.name, value := strip_ws header.value }

/-- Embedding of `_strip_connection_headers` (`h2/utilities.py`). -/
def strip_connection_headers (headers : List Header) : List Header :=
  headers.filter fun header => header.name ∉ CONNECTION_HEADERS

/-- Embedding of `normalize_outbound_headers` (`h2/utilities.py`, lines 472-484). -/
def normalize_outbound_headers (headers : List Header)
    (_flags : HeaderValidationFlags) : List Header :=
  secure_headers (strip_connection_headers
    (strip_surrounding_whitespace (lowercase_header_names headers)))

/-! ## `h2/utilities.py`: auxiliary extractor -/

/-- Embedding of `is_informational_response` (`h2/utilities.py`, lines 90-120).  The
Python loop returns `False` at the first non-pseudo name, returns
`v.startswith('1')` at the first `:status`, and falls off the loop
(returning the falsy `None`, modelled as `false`) otherwise. -/
def is_informational_response : List Header → Bool
  | [] => false
  | header :: rest =>
    if startswith_colon header.name = false then false
    else if header.name = ":status".toList then
      decide (header.value.head? = some '1')
    else is_informational_response rest

/-! ## Spec-side predicates

These definitions follow the wording of the specification's claims (not
the source); the claim theorems relate them to the embedded code above. -/

/-- Spec wording, 4.1.4 item 4: the sensitivity rule of outbound
normalization — mark never-indexed if the name is `authorization` or
`proxy-authorization`, or if the name is `cookie` and the value is
strictly shorter than 20 octets; otherwise preserve the caller-supplied
sensitivity. -/
def secure_rule (header : Header) : Header :=
  if header.name ∈ SECURE_HEADERS ∨
      (header.name = "cookie".toList ∧ header.value.length < 20) then
    { header with neverIndexed := true }
  else header

/-- Spec wording, 4.1.3: the last-seen value of a header named `nm` in a
block, if any. -/
def last_header_value (nm : Bytes) : List Header → Option Bytes
  | [] => none
  | header :: rest =>
    match last_header_value nm rest with
    | some v => some v
    | none => if header.name = nm then some header.value else none

/-- Spec wording, 4.1.2: some pseudo-header name occurs twice in the
block. -/
def has_duplicate_pseudo : List Header → Bool
  | [] => false
  | header :: rest =>
    (startswith_colon header.name &&
      rest.any fun y => decide (y.name = header.name)) ||
    has_duplicate_pseudo rest

/-- Spec wording, 4.1.2: some pseudo-header appears after a regular
header. -/
def has_pseudo_after_regular : List Header → Bool
  | [] => false
  | header :: rest =>
    (!startswith_colon header.name &&
      rest.any fun y => startswith_colon y.name) ||
    has_pseudo_after_regular rest

/-- Spec wording, 4.1.2: some pseudo-header name is outside the allowed
set. -/
def has_disallowed_pseudo (headers : List Header) : Bool :=
  headers.any fun y =>
    startswith_colon y.name && decide (y.name ∉ ALLOWED_PSEUDO_HEADER_FIELDS)

/-- The block contains at least one pseudo-header. -/
def has_pseudo (headers : List Header) : Bool :=
  headers.any fun y => startswith_colon y.name

/-- The block contains a header named `:status`. -/
def has_status (headers : List Header) : Bool :=
  headers.any fun y => decide (y.name = ":status".toList)

/-! ## Claims about the connection state machine and the flow-control guard -/

/-- Claim C1: every (state, input) pair listed in the spec's transition
table is accepted by `process_input` with the listed target state; in
particular, processing `RECV_PING` in state `SERVER_OPEN` succeeds and
leaves the state `SERVER_OPEN`.  This holds of the intended transition
table; the source itself would raise a `NameError` at import time because
line 91 of `h2/connection.py` misspells `ConnectionInputs` as
`ConnectlionInputs` in exactly this entry. -/
theorem claim_C1_transition_table_accepted :
    process_input ⟨SERVER_OPEN⟩ RECV_PING = (Except.ok (), ⟨SERVER_OPEN⟩) ∧
    process_input ⟨IDLE⟩ SEND_HEADERS = (Except.ok (), ⟨CLIENT_OPEN⟩) ∧
    process_input ⟨IDLE⟩ RECV_HEADERS = (Except.ok (), ⟨SERVER_OPEN⟩) ∧
    process_input ⟨CLIENT_OPEN⟩ SEND_HEADERS = (Except.ok (), ⟨CLIENT_OPEN⟩) ∧
    process_input ⟨CLIENT_OPEN⟩ SEND_DATA = (Except.ok (), ⟨CLIENT_OPEN⟩) ∧
    process_input ⟨CLIENT_OPEN⟩ SEND_WINDOW_UPDATE = (Except.ok (), ⟨CLIENT_OPEN⟩) ∧
    process_input ⟨CLIENT_OPEN⟩ SEND_PING = (Except.ok (), ⟨CLIENT_OPEN⟩) ∧
    process_input ⟨CLIENT_OPEN⟩ RECV_HEADERS = (Except.ok (), ⟨CLIENT_OPEN⟩) ∧
    process_input ⟨CLIENT_OPEN⟩ RECV_PUSH_PROMISE = (Except.ok (), ⟨CLIENT_OPEN⟩) ∧
    process_input ⟨CLIENT_OPEN⟩ RECV_DATA = (Except.ok (), ⟨CLIENT_OPEN⟩) ∧
    process_input ⟨CLIENT_OPEN⟩ RECV_WINDOW_UPDATE = (Except.ok (), ⟨CLIENT_OPEN⟩) ∧
    process_input ⟨CLIENT_OPEN⟩ RECV_PING = (Except.ok (), ⟨CLIENT_OPEN⟩) ∧
    process_input ⟨CLIENT_OPEN⟩ SEND_GOAWAY = (Except.ok (), ⟨CLOSED⟩) ∧
    process_input ⟨CLIENT_OPEN⟩ RECV_GOAWAY = (Except.ok (), ⟨CLOSED⟩) ∧
    process_input ⟨SERVER_OPEN⟩ SEND_HEADERS = (Except.ok (), ⟨SERVER_OPEN⟩) ∧
    process_input ⟨SERVER_OPEN⟩ SEND_PUSH_PROMISE = (Except.ok (), ⟨SERVER_OPEN⟩) ∧
    process_input ⟨SERVER_OPEN⟩ SEND_DATA = (Except.ok (), ⟨SERVER_OPEN⟩) ∧
    process_input ⟨SERVER_OPEN⟩ SEND_WINDOW_UPDATE = (Except.ok (), ⟨SERVER_OPEN⟩) ∧
    process_input ⟨SERVER_OPEN⟩ SEND_PING = (Except.ok (), ⟨SERVER_OPEN⟩) ∧
    process_input ⟨SERVER_OPEN⟩ RECV_HEADERS = (Except.ok (), ⟨SERVER_OPEN⟩) ∧
    process_input ⟨SERVER_OPEN⟩ RECV_DATA = (Except.ok (), ⟨SERVER_OPEN⟩) ∧
    process_input ⟨SERVER_OPEN⟩ RECV_WINDOW_UPDATE = (Except.ok (), ⟨SERVER_OPEN⟩) ∧
    process_input ⟨SERVER_OPEN⟩ SEND_GOAWAY = (Except.ok (), ⟨CLOSED⟩) ∧
    process_input ⟨SERVER_OPEN⟩ RECV_GOAWAY = (Except.ok (), ⟨CLOSED⟩) :=
  ⟨rfl, rfl, rfl, rfl, rfl, rfl, rfl, rfl, rfl, rfl, rfl, rfl,
   rfl, rfl, rfl, rfl, rfl, rfl, rfl, rfl, rfl, rfl, rfl, rfl⟩

/-- Claim C2: for every state in {IDLE, CLIENT_OPEN, SERVER_OPEN} and every
connection input such that the (state, input) pair is absent from the
transition table, `process_input` raises a `ProtocolError`, and at the
moment the error is raised the machine's state is `CLOSED`. -/
theorem claim_C2_absent_pairs_close_and_raise
    (S : ConnectionState) (I : ConnectionInputs)
    (_hS : S = IDLE ∨ S = CLIENT_OPEN ∨ S = SERVER_OPEN)
    (habsent : transitions S I = none) :
    process_input ⟨S⟩ I = (Except.error H2Err.protocolError, ⟨CLOSED⟩) := by
  simp [process_input, habsent]

/-- Witness for claim C2: a newly constructed machine (state `IDLE`) given
`SEND_DATA` — a pair absent from the table — raises a `ProtocolError` and
ends in state `CLOSED`. -/
theorem claim_C2_witness :
    process_input ⟨IDLE⟩ SEND_DATA = (Except.error H2Err.protocolError, ⟨CLOSED⟩) :=
  claim_C2_absent_pairs_close_and_raise IDLE SEND_DATA (Or.inl rfl) rfl

/-- Claim C3: once the state machine's state is `CLOSED`, it never changes
again: every input processed from `CLOSED` raises a `ProtocolError` and
leaves the state equal to `CLOSED`. -/
theorem claim_C3_closed_is_terminal (I : ConnectionInputs) :
    process_input ⟨CLOSED⟩ I = (Except.error H2Err.protocolError, ⟨CLOSED⟩) := by
  cases I <;> rfl

/-- Claim C4: `guard_increment_window current increment` returns exactly
`current + increment` whenever that sum is at most `2 ^ 31 - 1`, and raises
a `FlowControlError` whenever the sum exceeds `2 ^ 31 - 1`; no lower-bound
check is applied, so negative increments and negative results are
permitted.  Boundary instances: `(2 ^ 31 - 2) + 2` overflows and
`0 + (2 ^ 31 - 1)` does not. -/
theorem claim_C4_guard_increment_window :
    (∀ current increment : Int,
      guard_increment_window current increment =
        if current + increment > 2 ^ 31 - 1 then Except.error H2Err.flowControlError
        else Except.ok (current + increment)) ∧
    guard_increment_window (2 ^ 31 - 2) 2 = Except.error H2Err.flowControlError ∧
    guard_increment_window 0 (2 ^ 31 - 1) = Except.ok (2 ^ 31 - 1) ∧
    guard_increment_window 5 (-10) = Except.ok (-5) :=
  ⟨fun _ _ => rfl,
   by norm_num [guard_increment_window],
   by norm_num [guard_increment_window],
   by norm_num [guard_increment_window]⟩

/-! ## Claims about outbound normalization and the extractors -/

theorem secure_headers_eq_map (headers : List Header) :
    secure_headers headers = headers.map secure_rule := by
  induction headers with
  | nil => rfl
  | cons h t ih =>
    simp only [secure_headers, List.map_cons, ih]
    by_cases h1 : h.name ∈ SECURE_HEADERS
    · simp [secure_rule, h1]
    · by_cases h2 : h.name = "cookie".toList ∧ h.value.length < 20
      · simp [secure_rule, h1, h2]
      · simp [secure_rule, h1, h2]

/-- Claim C7: in the output of outbound normalization, every header named
`authorization` or `proxy-authorization` is marked never-indexed, and a
`cookie` header is forced never-indexed exactly when its value is strictly
shorter than 20 octets; every other header keeps the caller-supplied
sensitivity.  Stated as: the sensitivity pass (`_secure_headers`, the last
stage of `normalize_outbound_headers`) maps each header through the spec's
sensitivity rule, plus the two boundary instances — a caller-default
19-octet cookie value comes out never-indexed, a 20-octet one does not. -/
theorem claim_C7_outbound_sensitivity :
    (∀ headers flags, normalize_outbound_headers headers flags =
      secure_headers (strip_connection_headers
        (strip_surrounding_whitespace (lowercase_header_names headers)))) ∧
    (∀ headers, secure_headers headers = headers.map secure_rule) ∧
    secure_headers [⟨"cookie".toList, List.replicate 19 'x', false⟩] =
      [⟨"cookie".toList, List.replicate 19 'x', true⟩] ∧
    secure_headers [⟨"cookie".toList, List.replicate 20 'x', false⟩] =
      [⟨"cookie".toList, List.replicate 20 'x', false⟩] :=
  ⟨fun _ _ => rfl, secure_headers_eq_map, by decide, by decide⟩

/-- Claim C8: `is_informational_response` inspects only the leading
pseudo-header prefix (stopping at the first name not beginning with `:`)
and returns `true` iff a `:status` header is found in that prefix whose
value begins with the octet `1`; in every other case — including when the
block is empty — it returns `false` (the Python code falls off the loop
returning the falsy `None` there). -/
theorem claim_C8_is_informational_response (headers : List Header) :
    is_informational_response headers = true ↔
      ∃ p x s, headers = p ++ x :: s ∧
        (∀ y ∈ p, startswith_colon y.name = true ∧ y.name ≠ ":status".toList) ∧
        x.name = ":status".toList ∧ x.value.head? = some '1' := by
  induction headers with
  | nil =>
    constructor
    · intro h; simp [is_informational_response] at h
    · rintro ⟨p, x, s, hdec, -, -, -⟩
      cases p <;> simp at hdec
  | cons hd t ih =>
    cases c1 : startswith_colon hd.name with
    | false =>
      constructor
      · intro h; simp [is_informational_response, c1] at h
      · rintro ⟨p, x, s, hdec, hp, hx, -⟩
        exfalso
        cases p with
        | nil =>
          obtain ⟨rfl, -⟩ : hd = x ∧ t = s := by simpa using hdec
          rw [hx] at c1
          simp [startswith_colon] at c1
        | cons y p' =>
          obtain ⟨rfl, -⟩ : hd = y ∧ t = p' ++ x :: s := by simpa using hdec
          have := (hp hd (List.mem_cons_self _ _)).1
          rw [this] at c1
          cases c1
    | true =>
      by_cases c2 : hd.name = ":status".toList
      · have hunf : is_informational_response (hd :: t) =
            decide (hd.value.head? = some '1') := by
          simp only [is_informational_response]
          rw [if_neg (by simp [c1]), if_pos c2]
        constructor
        · intro h
          rw [hunf] at h
          exact ⟨[], hd, t, by simp, by simp, c2, by simpa using h⟩
        · rintro ⟨p, x, s, hdec, hp, hx, hv⟩
          cases p with
          | nil =>
            obtain ⟨rfl, rfl⟩ : hd = x ∧ t = s := by simpa using hdec
            rw [hunf]
            simpa using hv
          | cons y p' =>
            obtain ⟨rfl, -⟩ : hd = y ∧ t = p' ++ x :: s := by simpa using hdec
            exact absurd c2 (hp hd (List.mem_cons_self _ _)).2
      · have hstep : is_informational_response (hd :: t) =
            is_informational_response t := by
          simp only [is_informational_response]
          rw [if_neg (by simp [c1]), if_neg c2]
        rw [hstep, ih]
        constructor
        · rintro ⟨p, x, s, hdec, hp, hx, hv⟩
          refine ⟨hd :: p, x, s, by rw [hdec]; rfl, ?_, hx, hv⟩
          intro y hy
          rcases List.mem_cons.mp hy with rfl | hy'
          · exact ⟨c1, c2⟩
          · exact hp y hy'
        · rintro ⟨p, x, s, hdec, hp, hx, hv⟩
          cases p with
          | nil =>
            obtain ⟨rfl, -⟩ : hd = x ∧ t = s := by simpa using hdec
            exact absurd hx c2
          | cons y p' =>
            obtain ⟨rfl, htl⟩ : hd = y ∧ t = p' ++ x :: s := by simpa using hdec
            exact ⟨p', x, s, htl, fun z hz => hp z (List.mem_cons_of_mem _ hz), hx, hv⟩

/-! ## Claims about the :authority / Host agreement check -/

theorem host_scan_fst (headers : List Header) : ∀ a h,
    (host_scan headers a h).1 =
      (last_header_value ":authority".toList headers).elim a some := by
  induction headers with
  | nil => intro a h; rfl
  | cons x t ih =>
    intro a h
    show (host_scan t (host_step a h x).1 (host_step a h x).2).1 = _
    rw [ih]
    simp only [last_header_value]
    cases la : last_header_value ":authority".toList t
    · simp only [host_step, Option.elim]
      split_ifs <;> rfl
    · simp

theorem host_scan_snd (headers : List Header) : ∀ a h,
    (host_scan headers a h).2 =
      (last_header_value "host".toList headers).elim h some := by
  induction headers with
  | nil => intro a h; rfl
  | cons x t ih =>
    intro a h
    show (host_scan t (host_step a h x).1 (host_step a h x).2).2 = _
    rw [ih]
    simp only [last_header_value]
    cases lh : last_header_value "host".toList t
    · simp only [host_step, Option.elim]
      split_ifs with e1 e2
      · exact absurd (e1.symm.trans e2) (by decide)
      · rfl
      · rfl
      · rfl
    · simp

theorem check_host_authority_characterization (headers : List Header)
    (flags : HeaderValidationFlags) :
    check_host_authority_header headers flags =
      if flags.is_response_header || flags.is_trailer then Except.ok headers
      else
        match last_header_value ":authority".toList headers,
            last_header_value "host".toList headers with
        | none, none => Except.error H2Err.protocolError
        | some a, some h =>
          if a ≠ h then Except.error H2Err.protocolError else Except.ok headers
        | _, _ => Except.ok headers := by
  by_cases sk : (flags.is_response_header || flags.is_trailer) = true
  · simp [check_host_authority_header, sk]
  · have sk' : (flags.is_response_header || flags.is_trailer) = false := by
      simpa using sk
    have hfst : (host_scan headers none none).1 =
        last_header_value ":authority".toList headers := by
      rw [host_scan_fst]
      cases last_header_value ":authority".toList headers <;> rfl
    have hsnd : (host_scan headers none none).2 =
        last_header_value "host".toList headers := by
      rw [host_scan_snd]
      cases last_header_value "host".toList headers <;> rfl
    have hred : check_host_authority_header headers flags =
        (host_post (last_header_value ":authority".toList headers)
          (last_header_value "host".toList headers) >>= fun _ => pure headers) := by
      show (if flags.is_response_header || flags.is_trailer then Except.ok headers
        else validate_host_authority_header headers) = _
      rw [sk']
      show (host_post (host_scan headers none none).1
        (host_scan headers none none).2 >>= fun _ => pure headers) = _
      rw [hfst, hsnd]
    cases la : last_header_value ":authority".toList headers <;>
      cases lh : last_header_value "host".toList headers
    · rw [hred, la, lh, sk']; rfl
    · rw [hred, la, lh, sk']; rfl
    · rw [hred, la, lh, sk']; rfl
    · rename_i a b
      rw [hred, la, lh, sk']
      by_cases hab : a = b
      · subst hab
        show (host_post (some a) (some a) >>= fun _ => pure headers) =
          if a ≠ a then Except.error H2Err.protocolError else Except.ok headers
        rw [show host_post (some a) (some a) = Except.ok () from by simp [host_post],
          if_neg (show ¬a ≠ a from by simp)]
        rfl
      · show (host_post (some a) (some b) >>= fun _ => pure headers) =
          if a ≠ b then Except.error H2Err.protocolError else Except.ok headers
        rw [show host_post (some a) (some b) = Except.error H2Err.protocolError from by
          simp [host_post, hab], if_pos hab]
        rfl

/-- Claim C9: the :authority/Host agreement check is skipped entirely when
the `is_response_header` or `is_trailer` flag is set; otherwise the block
is scanned capturing the last-seen value for `:authority` and for `host`,
a `ProtocolError` is raised when neither header is present, and a
`ProtocolError` is raised when both are present with differing captured
values.  Duplicate `host` headers are not themselves rejected, as the
final conjunct shows on a block carrying two agreeing `host` headers. -/
theorem claim_C9_host_authority_agreement :
    (∀ (headers : List Header) (flags : HeaderValidationFlags),
      check_host_authority_header headers flags =
        if flags.is_response_header || flags.is_trailer then Except.ok headers
        else
          match last_header_value ":authority".toList headers,
              last_header_value "host".toList headers with
          | none, none => Except.error H2Err.protocolError
          | some a, some h =>
            if a ≠ h then Except.error H2Err.protocolError else Except.ok headers
          | _, _ => Except.ok headers) ∧
    check_host_authority_header
      [⟨":authority".toList, "x".toList, false⟩,
       ⟨"host".toList, "x".toList, false⟩,
       ⟨"host".toList, "x".toList, false⟩] ⟨false, false, false, false⟩ =
      Except.ok
        [⟨":authority".toList, "x".toList, false⟩,
         ⟨"host".toList, "x".toList, false⟩,
         ⟨"host".toList, "x".toList, false⟩] :=
  ⟨check_host_authority_characterization, rfl⟩

/-! ## Claims about `validate_headers` as a whole -/

theorem except_bind_ok {α β : Type} (a : α) (f : α → Except H2Err β) :
    (Except.ok a >>= f : Except H2Err β) = f a := rfl

theorem except_bind_error {α β : Type} (e : H2Err) (f : α → Except H2Err β) :
    ((Except.error e : Except H2Err α) >>= f) = Except.error e := rfl

theorem reject_uppercase_err (h : Header) (e : H2Err)
    (he : reject_uppercase_check h = Except.error e) : e = H2Err.protocolError := by
  unfold reject_uppercase_check at he
  split at he
  · exact (Except.error.inj he).symm
  · simp at he

theorem reject_surrounding_whitespace_err (h : Header) (e : H2Err)
    (hne : h.name ≠ []) (he : reject_surrounding_whitespace_check h = Except.error e) :
    e = H2Err.protocolError := by
  obtain ⟨nm, v, s⟩ := h
  cases nm with
  | nil => exact absurd rfl hne
  | cons a as =>
    unfold reject_surrounding_whitespace_check at he
    dsimp only at he
    split at he
    · exact (Except.error.inj he).symm
    · split at he
      · exact Except.noConfusion he
      · split at he
        · exact (Except.error.inj he).symm
        · exact Except.noConfusion he

theorem reject_te_err (h : Header) (e : H2Err)
    (he : reject_te_check h = Except.error e) : e = H2Err.protocolError := by
  unfold reject_te_check at he
  split at he
  · split at he
    · exact (Except.error.inj he).symm
    · simp at he
  · simp at he

theorem reject_connection_err (h : Header) (e : H2Err)
    (he : reject_connection_check h = Except.error e) : e = H2Err.protocolError := by
  unfold reject_connection_check at he
  split at he
  · exact (Except.error.inj he).symm
  · simp at he

theorem pseudo_step_err (seen : List Bytes) (reg : Bool) (h : Header) (e : H2Err)
    (he : pseudo_step seen reg h = Except.error e) : e = H2Err.protocolError := by
  unfold pseudo_step at he
  split at he
  · split at he
    · exact (Except.error.inj he).symm
    · split at he
      · exact (Except.error.inj he).symm
      · split at he
        · exact (Except.error.inj he).symm
        · simp at he
  · simp at he

theorem validate_step_empty (st : VState) (v : Bytes) (s : Bool) :
    validate_step st ⟨[], v, s⟩ = Except.error H2Err.indexError := rfl

theorem validate_step_err (st : VState) (h : Header) (e : H2Err)
    (hne : h.name ≠ []) (he : validate_step st h = Except.error e) :
    e = H2Err.protocolError := by
  unfold validate_step at he
  cases c1 : reject_uppercase_check h with
  | error e1 =>
    rw [c1, except_bind_error] at he
    exact (Except.error.inj he) ▸ reject_uppercase_err h e1 c1
  | ok u =>
    cases u
    rw [c1, except_bind_ok] at he
    cases c2 : reject_surrounding_whitespace_check h with
    | error e2 =>
      rw [c2, except_bind_error] at he
      exact (Except.error.inj he) ▸ reject_surrounding_whitespace_err h e2 hne c2
    | ok u =>
      cases u
      rw [c2, except_bind_ok] at he
      cases c3 : reject_te_check h with
      | error e3 =>
        rw [c3, except_bind_error] at he
        exact (Except.error.inj he) ▸ reject_te_err h e3 c3
      | ok u =>
        cases u
        rw [c3, except_bind_ok] at he
        cases c4 : reject_connection_check h with
        | error e4 =>
          rw [c4, except_bind_error] at he
          exact (Except.error.inj he) ▸ reject_connection_err h e4 c4
        | ok u =>
          cases u
          rw [c4, except_bind_ok] at he
          cases c5 : pseudo_step st.seenPseudo st.seenRegular h with
          | error e5 =>
            rw [c5, except_bind_error] at he
            exact (Except.error.inj he) ▸ pseudo_step_err _ _ h e5 c5
          | ok p =>
            obtain ⟨sp, sr⟩ := p
            rw [c5, except_bind_ok] at he
            exact Except.noConfusion he

theorem validate_scan_err (headers : List Header) : ∀ (st : VState) (e : H2Err),
    (∀ x ∈ headers, x.name ≠ []) → validate_scan headers st = Except.error e →
    e = H2Err.protocolError := by
  induction headers with
  | nil => intro st e _ he; simp [validate_scan] at he
  | cons h t ih =>
    intro st e hne he
    unfold validate_scan at he
    cases c : validate_step st h with
    | error e1 =>
      rw [c, except_bind_error] at he
      exact (Except.error.inj he) ▸
        validate_step_err st h e1 (hne h (List.mem_cons_self _ _)) c
    | ok st1 =>
      rw [c, except_bind_ok] at he
      exact ih st1 e (fun x hx => hne x (List.mem_cons_of_mem _ hx)) he

theorem validate_scan_empty_member (headers : List Header) : ∀ (st : VState),
    (∃ x ∈ headers, x.name = []) → ∀ st', validate_scan headers st ≠ Except.ok st' := by
  induction headers with
  | nil => rintro st ⟨x, hx, -⟩; cases hx
  | cons h t ih =>
    rintro st ⟨x, hx, hxe⟩ st' he
    unfold validate_scan at he
    rcases List.mem_cons.mp hx with rfl | hx'
    · obtain ⟨nm, v, s⟩ := x
      subst hxe
      rw [validate_step_empty, except_bind_error] at he
      cases he
    · cases c : validate_step st h with
      | error e1 => rw [c, except_bind_error] at he; cases he
      | ok st1 =>
        rw [c, except_bind_ok] at he
        exact ih st1 ⟨x, hx', hxe⟩ st' he

theorem pseudo_post_kind (flags : HeaderValidationFlags) (seen : List Bytes) :
    pseudo_post flags seen = Except.ok () ∨
    pseudo_post flags seen = Except.error H2Err.protocolError := by
  unfold pseudo_post
  split
  · right; rfl
  · split
    · right; rfl
    · left; rfl

theorem host_post_kind (a h : Option Bytes) :
    host_post a h = Except.ok () ∨
    host_post a h = Except.error H2Err.protocolError := by
  unfold host_post
  split
  · right; rfl
  · split
    · right; rfl
    · left; rfl

/-- Claim C5 (amended): for every header block all of whose field names
are non-empty and every validation-flags value, inbound validation either
returns the input sequence itself (element by element, in order) or raises
exactly one `ProtocolError`; it never returns a modified sequence.  (The
restriction to non-empty names is forced by the counterexample: a block
containing an empty header name makes `validate_headers` fail with an
`IndexError` instead, see claim C10.) -/
theorem claim_C5_validate_headers_id_or_protocol_error
    (headers : List Header) (flags : HeaderValidationFlags)
    (hne : ∀ x ∈ headers, x.name ≠ []) :
    validate_headers headers flags = Except.ok headers ∨
    validate_headers headers flags = Except.error H2Err.protocolError := by
  unfold validate_headers
  cases c : validate_scan headers ⟨[], false, none, none⟩ with
  | error e =>
    have hk := validate_scan_err headers _ e hne c
    subst hk
    rw [except_bind_error]
    right; rfl
  | ok st =>
    rw [except_bind_ok]
    rcases pseudo_post_kind flags st.seenPseudo with hp | hp
    · rw [hp, except_bind_ok]
      by_cases sk : (flags.is_response_header || flags.is_trailer) = true
      · rw [if_pos sk]; left; rfl
      · rw [if_neg sk]
        rcases host_post_kind st.authorityVal st.hostVal with hh | hh
        · rw [hh, except_bind_ok]; left; rfl
        · rw [hh, except_bind_error]; right; rfl
    · rw [hp, except_bind_error]; right; rfl

/-- Witness for claim C5, at the spec's minimal client request block. -/
theorem claim_C5_witness :
    validate_headers
      [⟨":method".toList, "GET".toList, false⟩,
       ⟨":scheme".toList, "https".toList, false⟩,
       ⟨":authority".toList, "x".toList, false⟩,
       ⟨":path".toList, "/".toList, false⟩] ⟨false, false, false, false⟩ =
      Except.ok
        [⟨":method".toList, "GET".toList, false⟩,
         ⟨":scheme".toList, "https".toList, false⟩,
         ⟨":authority".toList, "x".toList, false⟩,
         ⟨":path".toList, "/".toList, false⟩] ∨
    validate_headers
      [⟨":method".toList, "GET".toList, false⟩,
       ⟨":scheme".toList, "https".toList, false⟩,
       ⟨":authority".toList, "x".toList, false⟩,
       ⟨":path".toList, "/".toList, false⟩] ⟨false, false, false, false⟩ =
      Except.error H2Err.protocolError :=
  claim_C5_validate_headers_id_or_protocol_error _ _ (by decide)

/-- Counterexample to claim C5 as stated: on the one-element block whose
header has an empty name, `validate_headers` fails with an `IndexError`,
which is neither the input sequence nor a `ProtocolError`. -/
theorem claim_C5_counterexample :
    validate_headers [⟨[], "v".toList, false⟩] ⟨false, false, false, false⟩ =
      Except.error H2Err.indexError ∧
    (Except.error H2Err.indexError : Except H2Err (List Header)) ≠
      Except.ok [⟨[], "v".toList, false⟩] ∧
    H2Err.indexError ≠ H2Err.protocolError :=
  ⟨rfl, by simp, by simp⟩

/-- Claim C10 (amended): inbound validation is not total on blocks
containing an empty header name — on such a block it never returns a
result.  When the empty-name field is reached before any other check fails
(in particular whenever it comes first), the failure is the out-of-bounds
index of the surrounding-whitespace check, not the documented protocol
error; a field occurring earlier in the block may however fail its own
check first, in which case the raised error is that check's
`ProtocolError`. -/
theorem claim_C10_empty_name_not_total (before after : List Header)
    (flags : HeaderValidationFlags) (x : Header) (hx : x.name = []) :
    except_is_ok (validate_headers (before ++ x :: after) flags) = false ∧
    (before = [] →
      validate_headers (before ++ x :: after) flags = Except.error H2Err.indexError) := by
  constructor
  · unfold validate_headers
    cases c : validate_scan (before ++ x :: after) ⟨[], false, none, none⟩ with
    | error e => rw [except_bind_error]; rfl
    | ok st =>
      exact absurd c
        (validate_scan_empty_member (before ++ x :: after) _
          ⟨x, by simp, hx⟩ st)
  · intro hb
    subst hb
    obtain ⟨nm, v, s⟩ := x
    subst hx
    simp only [List.nil_append]
    unfold validate_headers
    rw [show validate_scan (({ name := [], value := v, neverIndexed := s } : Header) :: after)
        ⟨[], false, none, none⟩ = Except.error H2Err.indexError from by
      unfold validate_scan
      rw [validate_step_empty, except_bind_error], except_bind_error]

/-- Witness for claim C10: the empty-name header in first position yields
the out-of-bounds index error, and the call is not a normal return. -/
theorem claim_C10_witness :
    validate_headers [⟨[], "v".toList, false⟩, ⟨"a".toList, "b".toList, false⟩]
      ⟨false, false, false, false⟩ = Except.error H2Err.indexError ∧
    except_is_ok
      (validate_headers [⟨[], "v".toList, false⟩, ⟨"a".toList, "b".toList, false⟩]
        ⟨false, false, false, false⟩) = false :=
  ⟨(claim_C10_empty_name_not_total [] [⟨"a".toList, "b".toList, false⟩]
      ⟨false, false, false, false⟩ ⟨[], "v".toList, false⟩ rfl).2 rfl,
   (claim_C10_empty_name_not_total [] [⟨"a".toList, "b".toList, false⟩]
      ⟨false, false, false, false⟩ ⟨[], "v".toList, false⟩ rfl).1⟩

/-- Counterexample to claim C10 as stated: a block that contains an
empty-name field but whose first field is a forbidden connection-specific
header makes `validate_headers` raise a `ProtocolError` (from the earlier
field), contradicting the claim that such a call never raises one. -/
theorem claim_C10_counterexample :
    validate_headers
      [⟨"connection".toList, "x".toList, false⟩, ⟨[], "v".toList, false⟩]
      ⟨false, false, false, false⟩ = Except.error H2Err.protocolError :=
  rfl

/-! ## Claims about the pseudo-header discipline -/

theorem pseudo_scan_err (headers : List Header) :
    ∀ (seen : List Bytes) (reg : Bool) (e : H2Err),
    pseudo_scan headers seen reg = Except.error e → e = H2Err.protocolError := by
  induction headers with
  | nil => intro seen reg e he; simp [pseudo_scan] at he
  | cons h t ih =>
    intro seen reg e he
    unfold pseudo_scan at he
    cases c : pseudo_step seen reg h with
    | error e1 =>
      rw [c, except_bind_error] at he
      exact (Except.error.inj he) ▸ pseudo_step_err seen reg h e1 c
    | ok p =>
      obtain ⟨seen', reg'⟩ := p
      rw [c, except_bind_ok] at he
      exact ih seen' reg' e he

theorem pseudo_scan_ok_facts (headers : List Header) :
    ∀ (seen : List Bytes) (reg : Bool) (sp : List Bytes) (rg : Bool),
    pseudo_scan headers seen reg = Except.ok (sp, rg) →
    has_duplicate_pseudo headers = false ∧
    (∀ n ∈ seen, startswith_colon n = true → ∀ x ∈ headers, x.name ≠ n) ∧
    (reg = true → ∀ x ∈ headers, startswith_colon x.name = false) ∧
    has_pseudo_after_regular headers = false ∧
    has_disallowed_pseudo headers = false ∧
    (∀ n : Bytes, n ∈ sp ↔ n ∈ seen ∨
      ∃ x ∈ headers, startswith_colon x.name = true ∧ x.name = n) := by
  induction headers with
  | nil =>
    intro seen reg sp rg hscan
    have hinj : (Except.ok (seen, reg) : Except H2Err (List Bytes × Bool)) =
        Except.ok (sp, rg) := hscan
    obtain ⟨rfl, rfl⟩ := Prod.mk.inj (Except.ok.inj hinj)
    refine ⟨rfl, ?_, ?_, rfl, rfl, ?_⟩
    · intro n _ _ x hx; cases hx
    · intro _ x hx; cases hx
    · intro n; simp
  | cons h t ih =>
    intro seen reg sp rg hscan
    unfold pseudo_scan at hscan
    by_cases hcol : startswith_colon h.name = true
    · by_cases hseen : h.name ∈ seen
      · have hstep : pseudo_step seen reg h = Except.error H2Err.protocolError := by
          unfold pseudo_step; rw [if_pos hcol, if_pos hseen]
        rw [hstep, except_bind_error] at hscan
        exact Except.noConfusion hscan
      · by_cases hreg : reg = true
        · have hstep : pseudo_step seen reg h = Except.error H2Err.protocolError := by
            unfold pseudo_step; rw [if_pos hcol, if_neg hseen, if_pos hreg]
          rw [hstep, except_bind_error] at hscan
          exact Except.noConfusion hscan
        · by_cases hallow : h.name ∈ ALLOWED_PSEUDO_HEADER_FIELDS
          · have hstep : pseudo_step seen reg h = Except.ok (h.name :: seen, reg) := by
              unfold pseudo_step
              rw [if_pos hcol, if_neg hseen, if_neg hreg,
                if_neg (not_not_intro hallow)]
            rw [hstep, except_bind_ok] at hscan
            have hscan' : pseudo_scan t (h.name :: seen) reg =
                Except.ok (sp, rg) := hscan
            obtain ⟨ih1, ih2, ih3, ih4, ih5, ih6⟩ :=
              ih (h.name :: seen) reg sp rg hscan'
            have hnoth : ∀ x ∈ t, x.name ≠ h.name :=
              ih2 h.name (List.mem_cons_self _ _) hcol
            refine ⟨?_, ?_, ?_, ?_, ?_, ?_⟩
            · show ((startswith_colon h.name &&
                  t.any fun y => decide (y.name = h.name)) ||
                has_duplicate_pseudo t) = false
              rw [ih1, Bool.or_false, hcol, Bool.true_and]
              exact List.any_eq_false.mpr fun y hy => by simpa using hnoth y hy
            · intro n hn hcoln x hx
              rcases List.mem_cons.mp hx with rfl | hx'
              · exact fun heq => hseen (heq ▸ hn)
              · exact ih2 n (List.mem_cons_of_mem _ hn) hcoln x hx'
            · intro hr; exact absurd hr hreg
            · show ((!startswith_colon h.name &&
                  t.any fun y => startswith_colon y.name) ||
                has_pseudo_after_regular t) = false
              rw [ih4, Bool.or_false, hcol, Bool.not_true, Bool.false_and]
            · show ((startswith_colon h.name &&
                  decide (h.name ∉ ALLOWED_PSEUDO_HEADER_FIELDS)) ||
                has_disallowed_pseudo t) = false
              rw [ih5, Bool.or_false]
              simp [hallow]
            · intro n
              rw [ih6 n]
              constructor
              · rintro (hn | ⟨x, hx, hcx, rfl⟩)
                · rcases List.mem_cons.mp hn with rfl | hn'
                  · exact Or.inr ⟨h, List.mem_cons_self _ _, hcol, rfl⟩
                  · exact Or.inl hn'
                · exact Or.inr ⟨x, List.mem_cons_of_mem _ hx, hcx, rfl⟩
              · rintro (hn | ⟨x, hx, hcx, rfl⟩)
                · exact Or.inl (List.mem_cons_of_mem _ hn)
                · rcases List.mem_cons.mp hx with rfl | hx'
                  · exact Or.inl (List.mem_cons_self _ _)
                  · exact Or.inr ⟨x, hx', hcx, rfl⟩
          · have hstep : pseudo_step seen reg h =
                Except.error H2Err.protocolError := by
              unfold pseudo_step
              rw [if_pos hcol, if_neg hseen, if_neg hreg, if_pos hallow]
            rw [hstep, except_bind_error] at hscan
            exact Except.noConfusion hscan
    · have hcolf : startswith_colon h.name = false := by
        simpa using hcol
      have hstep : pseudo_step seen reg h = Except.ok (seen, true) := by
        unfold pseudo_step; rw [if_neg hcol]
      rw [hstep, except_bind_ok] at hscan
      have hscan' : pseudo_scan t seen true = Except.ok (sp, rg) := hscan
      obtain ⟨ih1, ih2, ih3, ih4, ih5, ih6⟩ := ih seen true sp rg hscan'
      have htnp : ∀ x ∈ t, startswith_colon x.name = false := ih3 rfl
      refine ⟨?_, ?_, ?_, ?_, ?_, ?_⟩
      · show ((startswith_colon h.name &&
            t.any fun y => decide (y.name = h.name)) ||
          has_duplicate_pseudo t) = false
        rw [ih1, Bool.or_false, hcolf, Bool.false_and]
      · intro n hn hcoln x hx
        rcases List.mem_cons.mp hx with rfl | hx'
        · intro heq
          rw [heq, hcoln] at hcolf
          exact Bool.noConfusion hcolf
        · exact ih2 n hn hcoln x hx'
      · intro _ x hx
        rcases List.mem_cons.mp hx with rfl | hx'
        · exact hcolf
        · exact htnp x hx'
      · show ((!startswith_colon h.name &&
            t.any fun y => startswith_colon y.name) ||
          has_pseudo_after_regular t) = false
        rw [ih4, Bool.or_false, hcolf, Bool.not_false, Bool.true_and]
        exact List.any_eq_false.mpr fun y hy => by simp [htnp y hy]
      · show ((startswith_colon h.name &&
            decide (h.name ∉ ALLOWED_PSEUDO_HEADER_FIELDS)) ||
          has_disallowed_pseudo t) = false
        rw [ih5, Bool.or_false, hcolf, Bool.false_and]
      · intro n
        rw [ih6 n]
        constructor
        · rintro (hn | ⟨x, hx, hcx, rfl⟩)
          · exact Or.inl hn
          · exact Or.inr ⟨x, List.mem_cons_of_mem _ hx, hcx, rfl⟩
        · rintro (hn | ⟨x, hx, hcx, rfl⟩)
          · exact Or.inl hn
          · rcases List.mem_cons.mp hx with rfl | hx'
            · rw [hcx] at hcolf
              exact Bool.noConfusion hcolf
            · exact Or.inr ⟨x, hx', hcx, rfl⟩

theorem pseudo_post_error_of_trailer (flags : HeaderValidationFlags)
    (sp : List Bytes) (ht : flags.is_trailer = true) (hne : sp ≠ []) :
    pseudo_post flags sp = Except.error H2Err.protocolError := by
  unfold pseudo_post; rw [if_pos ⟨ht, hne⟩]

theorem pseudo_post_error_of_status (flags : HeaderValidationFlags)
    (sp : List Bytes) (hr : flags.is_response_header = true)
    (hst : ":status".toList ∉ sp) :
    pseudo_post flags sp = Except.error H2Err.protocolError := by
  unfold pseudo_post
  split
  · rfl
  · rw [if_pos ⟨hr, hst⟩]

/-- Claim C6: the inbound pseudo-header stage (`_reject_pseudo_header_fields`,
check 5 of `validate_headers`) raises a `ProtocolError` if any pseudo-header
name is duplicated, appears after a regular header, or lies outside the set
of five allowed pseudo-headers; after iteration it raises a `ProtocolError`
if the `is_trailer` flag is set and any pseudo-header was seen, and if the
`is_response_header` flag is set and no `:status` pseudo-header was seen. -/
theorem claim_C6_pseudo_header_discipline (headers : List Header)
    (flags : HeaderValidationFlags)
    (hcond : has_duplicate_pseudo headers = true ∨
      has_pseudo_after_regular headers = true ∨
      has_disallowed_pseudo headers = true ∨
      (flags.is_trailer = true ∧ has_pseudo headers = true) ∨
      (flags.is_response_header = true ∧ has_status headers = false)) :
    reject_pseudo_header_fields headers flags = Except.error H2Err.protocolError := by
  unfold reject_pseudo_header_fields
  cases c : pseudo_scan headers [] false with
  | error e =>
    have hk := pseudo_scan_err headers [] false e c
    subst hk
    rw [except_bind_error]
  | ok p =>
    obtain ⟨sp, rg⟩ := p
    rw [except_bind_ok]
    obtain ⟨h1, h2, h3, h4, h5, h6⟩ := pseudo_scan_ok_facts headers [] false sp rg c
    have hpost : pseudo_post flags sp = Except.error H2Err.protocolError := by
      rcases hcond with hc | hc | hc | ⟨ht, hp⟩ | ⟨hr, hs⟩
      · exact Bool.noConfusion (hc.symm.trans h1)
      · exact Bool.noConfusion (hc.symm.trans h4)
      · exact Bool.noConfusion (hc.symm.trans h5)
      · obtain ⟨x, hx, hcx⟩ := List.any_eq_true.mp hp
        have hmem : x.name ∈ sp := (h6 x.name).mpr (Or.inr ⟨x, hx, hcx, rfl⟩)
        have hne : sp ≠ [] := fun hsp => by rw [hsp] at hmem; cases hmem
        exact pseudo_post_error_of_trailer flags sp ht hne
      · have hst : ":status".toList ∉ sp := by
          intro hmem
          rcases (h6 _).mp hmem with hin | ⟨x, hx, hcx, heq⟩
          · cases hin
          · exact absurd heq (by simpa using List.any_eq_false.mp hs x hx)
        exact pseudo_post_error_of_status flags sp hr hst
    show (pseudo_post flags sp >>= fun _ => pure headers) =
      Except.error H2Err.protocolError
    rw [hpost, except_bind_error]

/-- Witness for claim C6: a block with a duplicated `:method` pseudo-header
is rejected with a `ProtocolError`. -/
theorem claim_C6_witness :
    reject_pseudo_header_fields
      [⟨":method".toList, "GET".toList, false⟩,
       ⟨":method".toList, "GET".toList, false⟩]
      ⟨false, false, false, false⟩ = Except.error H2Err.protocolError :=
  claim_C6_pseudo_header_discipline _ _ (Or.inl (by decide))

end H2
